import Mathlib

/-!
Verification of the PDF extraction-analysis-report pipeline.

Shallow embedding of the repository's core functions:
  * `pdf_report.py` — the markdown-table parsing step of `beautify_report`
    (lines 29-35);
  * `pdf_analyzer.py` — `prepare_gemini_input` (lines 64-92),
    `send_to_gemini` (lines 94-132), `clean_table_response` (lines 240-255),
    and the empty-evidence guard of the main script (lines 192-194).

Python strings are modelled as `List Char`; `str.split` with a one-character
separator becomes `splitChar`, `str.strip()` becomes `pyStrip` (stripping the
same six whitespace characters Python strips by default).  The column-width
computation of `beautify_report` (lines 61-74) is not embedded: it is IEEE-754
double arithmetic, whose guard and rescale depend on rounding behaviour that
exact-field arithmetic does not reproduce.
-/

/-- Python strings, modelled as lists of characters. -/
abbrev Str := List Char

/-- The set of characters `str.strip()` removes by default in Python. -/
def pySpace (c : Char) : Bool :=
  c = ' ' || c = '\t' || c = '\n' || c = '\r' || c = '\x0b' || c = '\x0c'

/-- Python `s.strip()`: drop leading and trailing whitespace. -/
def pyStrip (s : Str) : Str :=
  ((s.dropWhile pySpace).reverse.dropWhile pySpace).reverse

/-- Python `s.split(c)` for a single-character separator `c`.
On the empty string it returns `[[]]`, exactly as `''.split(c) == ['']`. -/
def splitChar (c : Char) : Str → List Str
  | [] => [[]]
  | x :: xs =>
    let r := splitChar c xs
    if x = c then [] :: r
    else
      match r with
      | [] => [[x]]
      | y :: ys => (x :: y) :: ys

/-- One line's cells, as computed by `beautify_report`:
`[cell.strip() for cell in line.split('|')[1:-1]]` (pdf_report.py line 30/34). -/
def parseCells (line : Str) : List Str :=
  (((splitChar '|' line).drop 1).dropLast).map pyStrip

/-- The data-accumulation loop of `beautify_report` (pdf_report.py lines 31-35),
run over the lines it iterates (`lines[2:]`): every line whose stripped form is
non-empty appends the row of its parsed cells. -/
def dataOfLines (rest : List Str) : List (List Str) :=
  rest.foldl (fun acc line => if pyStrip line ≠ [] then acc ++ [parseCells line] else acc) []

/-- The table-parsing step of `beautify_report` (pdf_report.py lines 29-35):
strip the content, split into lines, read headers from `lines[0]`, and collect
data rows from `lines[2:]`.  Returns `none` exactly when the line list is empty
(which would make the Python indexing `lines[0]` raise); `beautify_parse_total`
shows this never happens. -/
def beautify_report_parse (table_content : Str) : Option (List Str × List (List Str)) :=
  match splitChar '\n' (pyStrip table_content) with
  | [] => none
  | l0 :: rest => some (parseCells l0, dataOfLines (rest.drop 1))

/-- The `clean_table_response` helper of `pdf_analyzer.py` (lines 240-255):
strip the response, drop blank lines, and re-join with newlines. -/
def clean_table_response (response : Str) : Str :=
  let table := pyStrip response
  let ls := (splitChar '\n' table).filter (fun l => !(pyStrip l).isEmpty)
  List.intercalate ['\n'] ls

/-- The literal sentinel the spec claims is used for missing cells. -/
def notSpecified : Str := ("Not specified").toList

lemma splitChar_ne_nil (c : Char) (s : Str) : splitChar c s ≠ [] := by
  induction s with
  | nil => simp [splitChar]
  | cons x xs ih =>
    simp only [splitChar]
    split
    · simp
    · cases h : splitChar c xs with
      | nil => simp
      | cons y ys => simp [h]

lemma splitChar_of_not_mem (c : Char) (s : Str) (h : c ∉ s) : splitChar c s = [s] := by
  induction s with
  | nil => rfl
  | cons x xs ih =>
    simp only [List.mem_cons, not_or] at h
    simp only [splitChar]
    rw [if_neg (fun hx => h.1 hx.symm)]
    rw [ih h.2]

lemma splitChar_append_cons (c : Char) (pre rest : Str) (h : c ∉ pre) :
    splitChar c (pre ++ c :: rest) = pre :: splitChar c rest := by
  induction pre with
  | nil => simp [splitChar]
  | cons x xs ih =>
    simp only [List.mem_cons, not_or] at h
    simp only [List.cons_append, splitChar, List.append_eq]
    rw [if_neg (fun hx => h.1 hx.symm), ih h.2]

lemma splitChar_append_last (c : Char) (xs post : Str) (h : c ∉ post) :
    splitChar c (xs ++ c :: post) = splitChar c xs ++ [post] := by
  induction xs with
  | nil => simp [splitChar, splitChar_of_not_mem c post h]
  | cons x ys ih =>
    simp only [List.cons_append, splitChar, List.append_eq]
    by_cases hx : x = c
    · rw [if_pos hx, if_pos hx, ih]
      rfl
    · rw [if_neg hx, if_neg hx, ih]
      cases hys : splitChar c ys with
      | nil => exact absurd hys (splitChar_ne_nil c ys)
      | cons z zs => simp

lemma splitChar_length (c : Char) (s : Str) :
    (splitChar c s).length = s.count c + 1 := by
  induction s with
  | nil => simp [splitChar]
  | cons x xs ih =>
    simp only [splitChar]
    by_cases hx : x = c
    · subst hx
      simp [List.count_cons, ih]
    · rw [if_neg hx]
      cases h : splitChar c xs with
      | nil => exact absurd h (splitChar_ne_nil c xs)
      | cons y ys =>
        rw [h] at ih
        simp only [List.length_cons] at ih ⊢
        rw [List.count_cons]
        simp [hx, ih]

lemma dataOfLines_append_general (rest : List Str) (acc : List (List Str)) :
    rest.foldl (fun acc line => if pyStrip line ≠ [] then acc ++ [parseCells line] else acc) acc
      = acc ++ (rest.filter (fun l => !(pyStrip l).isEmpty)).map parseCells := by
  induction rest generalizing acc with
  | nil => simp
  | cons x xs ih =>
    simp only [List.foldl_cons, List.filter_cons]
    by_cases hx : pyStrip x = []
    · simp only [hx]
      rw [if_neg (by simp)]
      rw [ih]
      simp [hx]
    · rw [if_pos hx, ih]
      have : (!(pyStrip x).isEmpty) = true := by
        simp [List.isEmpty_iff, hx]
      rw [this]
      simp

lemma dataOfLines_eq (rest : List Str) :
    dataOfLines rest = (rest.filter (fun l => !(pyStrip l).isEmpty)).map parseCells := by
  unfold dataOfLines
  rw [dataOfLines_append_general]
  simp

lemma beautify_parse_total (s : Str) : (beautify_report_parse s).isSome := by
  unfold beautify_report_parse
  cases h : splitChar '\n' (pyStrip s) with
  | nil => exact absurd h (splitChar_ne_nil _ _)
  | cons l0 rest => simp

/-!
Embedding of `pdf_analyzer.py`.

A payload segment is either a string part or an image part; images are
abstracted by an arbitrary type `I` (a PIL image object in the source).
Image loading (`PIL.Image.open`, which may raise on a corrupt file) is an
oracle `load : String → Option I`: `none` models a load failure that the
`try/except` at lines 76-89 catches and skips.
-/

/-- One element of the `content_parts` list sent to the engine. -/
inductive ContentPart (I : Type) where
  | str : String → ContentPart I
  | img : I → ContentPart I
deriving DecidableEq

/-- The section label appended before the extracted text (pdf_analyzer.py line 69). -/
def textLabel : String := "\n\n--- PDF Text Content ---\n"

/-- The section label appended before the page images (pdf_analyzer.py line 73). -/
def imagesLabel : String := "\n\n--- PDF Page Images ---\n"

/-- The image-loading loop of `prepare_gemini_input` (pdf_analyzer.py lines 75-89):
each path whose load succeeds appends its image; failures are skipped. -/
def addImages {I : Type} (load : String → Option I) (acc : List (ContentPart I))
    (ps : List String) : List (ContentPart I) :=
  ps.foldl (fun a p =>
    match load p with
    | some i => a ++ [ContentPart.img i]
    | none => a) acc

/-- The `prepare_gemini_input` function (pdf_analyzer.py lines 64-92).
`text = some ""` and `image_paths = some []` are falsy in Python's `if`,
hence treated like `none`. -/
def prepare_gemini_input {I : Type} (prompt : String) (text : Option String)
    (image_paths : Option (List String)) (load : String → Option I) : List (ContentPart I) :=
  let parts := [ContentPart.str prompt]
  let parts :=
    match text with
    | some t => if t = "" then parts else parts ++ [ContentPart.str textLabel, ContentPart.str t]
    | none => parts
  match image_paths with
  | some ps => if ps = [] then parts else addImages load (parts ++ [ContentPart.str imagesLabel]) ps
  | none => parts

/-- Number of image segments in a payload. -/
def imageCount {I : Type} (parts : List (ContentPart I)) : Nat :=
  (parts.filter (fun p => match p with | ContentPart.img _ => true | ContentPart.str _ => false)).length

/-- The early-abort guard of the main script (pdf_analyzer.py lines 192-194):
`if not extracted_text and not screenshot_paths: exit(1)`.  `extracted_text`
is falsy when it is `None` or the empty string; `screenshot_paths` when empty. -/
def mainAborts (extracted_text : Option String) (screenshot_paths : List String) : Bool :=
  (match extracted_text with
   | none => true
   | some s => s = "") && screenshot_paths.isEmpty

/-- The model name constant (pdf_analyzer.py line 20). -/
def MODEL_NAME : String := "gemini-2.5-flash-preview-04-17"

/-- The request object `send_to_gemini` builds for `generate_content`
(pdf_analyzer.py lines 98-104): model, contents, and the thinking budget
taken from `ThinkingConfig(thinking_budget=1024)`. -/
structure GenerateRequest (I : Type) where
  model : String
  contents : List (ContentPart I)
  thinking_budget : Nat

/-- The request built by `send_to_gemini` from its single argument
`content_parts`; the thinking budget is the literal `1024` at line 102. -/
def geminiRequest {I : Type} (content_parts : List (ContentPart I)) : GenerateRequest I :=
  { model := MODEL_NAME, contents := content_parts, thinking_budget := 1024 }

/-- The string returned from the `except` branch of `send_to_gemini`
(pdf_analyzer.py line 132): `f"Error: Failed to get response from Gemini. {e}"`. -/
def failureMessage (e : String) : String :=
  "Error: Failed to get response from Gemini. " ++ e

/-- The `send_to_gemini` function (pdf_analyzer.py lines 94-132).  The engine
call is an oracle from the built request to either a response text or an error
message; the `except` clause catches every error and returns
`failureMessage e` as an ordinary string.  The engine is consulted exactly
once (no retry loop exists in the source). -/
def send_to_gemini {I : Type} (engine : GenerateRequest I → Except String String)
    (content_parts : List (ContentPart I)) : String :=
  match engine (geminiRequest content_parts) with
  | Except.ok t => t
  | Except.error e => failureMessage e

lemma addImages_eq {I : Type} (load : String → Option I) (acc : List (ContentPart I))
    (ps : List String) :
    addImages load acc ps = acc ++ (ps.filterMap load).map ContentPart.img := by
  induction ps generalizing acc with
  | nil => simp [addImages]
  | cons p ps ih =>
    simp only [addImages, List.foldl_cons, List.filterMap_cons]
    cases h : load p with
    | none =>
      simpa [addImages, h] using ih acc
    | some i =>
      simp only [h]
      have := ih (acc ++ [ContentPart.img i])
      simpa [addImages, h] using this

lemma prepare_gemini_input_eq {I : Type} (prompt : String) (text : Option String)
    (image_paths : Option (List String)) (load : String → Option I) :
    prepare_gemini_input prompt text image_paths load =
      [ContentPart.str prompt]
      ++ (match text with
          | some t => if t = "" then [] else [ContentPart.str textLabel, ContentPart.str t]
          | none => [])
      ++ (match image_paths with
          | some ps =>
            if ps = [] then []
            else ContentPart.str imagesLabel :: (ps.filterMap load).map ContentPart.img
          | none => []) := by
  unfold prepare_gemini_input
  cases text with
  | none =>
    cases image_paths with
    | none => simp
    | some ps =>
      by_cases hps : ps = [] <;> simp [hps, addImages_eq]
  | some t =>
    by_cases ht : t = "" <;>
      cases image_paths with
      | none => simp [ht]
      | some ps =>
        by_cases hps : ps = [] <;> simp [ht, hps, addImages_eq]


lemma parseCells_count_le_one (line : Str) (h : line.count '|' ≤ 1) :
    parseCells line = [] := by
  unfold parseCells
  have hlen : (((splitChar '|' line).drop 1).dropLast).length = 0 := by
    rw [List.length_dropLast, List.length_drop, splitChar_length]
    omega
  rw [List.eq_nil_of_length_eq_zero hlen]
  rfl

/-- C1.  The claim states that a data line whose cell count does not match the
header's is repaired: missing trailing cells become `"Not specified"` and
excess cells are merged into the last column.  This is false: against the
3-column header, the two-cell row `"| B | 2% |"` is stored as the two-cell row
`{B, 2%}` — no third cell `"Not specified"` is added. -/
theorem C1_counterexample :
    beautify_report_parse (("| A | B | C |\n|---|---|---|\n| B | 2% |").toList)
      = some ([['A'], ['B'], ['C']], [[['B'], ['2', '%']]])
    ∧ [[['B'], ['2', '%']]] ≠ ([[['B'], ['2', '%'], notSpecified]] : List (List Str)) := by
  constructor
  · rfl
  · decide

/-- C1 (amended).  Rows with mismatched cell counts are accepted verbatim:
every data line whose stripped form is non-empty contributes exactly the cells
between its outer delimiters — no line is dropped, but no `"Not specified"`
padding and no merging of excess cells ever happens; the stored row is
`parseCells line` regardless of the header's column count. -/
theorem C1_rows_kept_verbatim :
    ∀ rest : List Str,
      dataOfLines rest = (rest.filter (fun l => !(pyStrip l).isEmpty)).map parseCells :=
  dataOfLines_eq

/-- C2.  The claim states the line after the header is skipped only when it
matches a separator pattern, so that data beginning immediately after the
header loses no rows.  This is false: on
`"| A | B | C |\n| X | 1 | u |"` the second line is ordinary data, yet the
parse yields an empty data list — the row `{X, 1, u}` is lost. -/
theorem C2_counterexample :
    beautify_report_parse (("| A | B | C |\n| X | 1 | u |").toList)
      = some ([['A'], ['B'], ['C']], [])
    ∧ ([] : List (List Str)) ≠ [[['X'], ['1'], ['u']]] := by
  constructor
  · rfl
  · decide

/-- C2 (amended).  The parser skips the line after the header unconditionally
(it iterates `lines[2:]`), whether or not that line matches a separator
pattern: whenever the stripped input splits into `l0 :: l1 :: rest`, the
headers come from `l0`, the data rows come only from `rest`, and `l1` is
discarded no matter its content.  Inputs with a separator line therefore yield
exactly their data rows; inputs without one lose their first data row. -/
theorem C2_second_line_skipped_unconditionally :
    ∀ (s l0 l1 : Str) (rest : List Str),
      splitChar '\n' (pyStrip s) = l0 :: l1 :: rest →
      beautify_report_parse s = some (parseCells l0, dataOfLines rest) := by
  intro s l0 l1 rest h
  unfold beautify_report_parse
  rw [h]
  rfl

/-- Witness for C2 (amended): the spec's Example 1, whose separator line is the
skipped second line, parses to exactly one data row `{A, 1%, solvent}`. -/
theorem C2_second_line_skipped_unconditionally_witness :
    beautify_report_parse (("| A | 1% | solvent |\n|---|---|---|\n| A | 1% | solvent |").toList)
      = some (parseCells (("| A | 1% | solvent |").toList),
              dataOfLines [("| A | 1% | solvent |").toList]) :=
  C2_second_line_skipped_unconditionally
    (("| A | 1% | solvent |\n|---|---|---|\n| A | 1% | solvent |").toList)
    (("| A | 1% | solvent |").toList)
    (("|---|---|---|").toList)
    [("| A | 1% | solvent |").toList]
    (by decide)

/-- C5.  The table-normalization step never fails: for every input string the
parse returns a header/data pair (the only possible failure point, indexing
`lines[0]`, is unreachable because splitting always yields at least one line),
and the empty input yields an empty header list and a data table of length 0;
`clean_table_response` maps the empty response to the empty string. -/
theorem C5_normalize_never_fails :
    (∀ s : Str, (beautify_report_parse s).isSome)
    ∧ beautify_report_parse [] = some ([], [])
    ∧ clean_table_response [] = [] :=
  ⟨beautify_parse_total, rfl, rfl⟩

/-- C10.  The parser keeps only the cells strictly between the first and the
last delimiter: text before the first `|` and after the last `|` is discarded;
a line containing at most one `|` yields a row with zero cells; and such a
line, when non-blank, is still appended to the data as an empty row. -/
theorem C10_between_delimiters :
    (∀ pre mid post : Str, '|' ∉ pre → '|' ∉ post →
       parseCells (pre ++ '|' :: (mid ++ '|' :: post)) = (splitChar '|' mid).map pyStrip)
    ∧ (∀ line : Str, line.count '|' ≤ 1 → parseCells line = [])
    ∧ (∀ (rest : List Str) (line : Str), pyStrip line ≠ [] → line.count '|' ≤ 1 →
        dataOfLines (rest ++ [line]) = dataOfLines rest ++ [[]]) := by
  refine ⟨?_, parseCells_count_le_one, ?_⟩
  · intro pre mid post hpre hpost
    unfold parseCells
    rw [splitChar_append_cons '|' pre _ hpre, splitChar_append_last '|' mid post hpost]
    simp
  · intro rest line hne hcount
    unfold dataOfLines
    rw [List.foldl_append]
    simp only [List.foldl_cons, List.foldl_nil]
    rw [if_pos hne, parseCells_count_le_one line hcount]

/-- Witness for C10: concrete instances of all three conjuncts — outer text
`ab`/`d` is discarded around `" c "`, a pipe-free line parses to zero cells,
and a non-blank pipe-free line is appended to the data as an empty row. -/
theorem C10_between_delimiters_witness :
    parseCells (("ab").toList ++ '|' :: ((" c ").toList ++ '|' :: ("d").toList))
      = (splitChar '|' ((" c ").toList)).map pyStrip
    ∧ parseCells (("no pipes here").toList) = []
    ∧ dataOfLines [("garbage").toList] = dataOfLines [] ++ [[]] := by
  refine ⟨C10_between_delimiters.1 _ _ _ (by decide) (by decide),
          C10_between_delimiters.2.1 _ (by decide),
          ?_⟩
  have h := C10_between_delimiters.2.2 [] (("garbage").toList) (by decide) (by decide)
  simpa using h

/-- C3.  The claim states that when every requested modality fails (no text and
only corrupt images), assembly fails with `EmptyEvidence`.  This is false:
with no text and two image paths that both fail to load, `prepare_gemini_input`
returns a normal payload (the instruction followed by the bare image-section
label), and the main script's empty-evidence guard does not fire either, since
it tests the screenshot-path list, not the loaded images. -/
theorem C3_counterexample :
    prepare_gemini_input (I := Nat) "PROMPT" none (some ["a.png", "b.png"]) (fun _ => none)
      = [ContentPart.str "PROMPT", ContentPart.str imagesLabel]
    ∧ mainAborts none ["a.png", "b.png"] = false := by
  constructor
  · rw [prepare_gemini_input_eq]
    rfl
  · rfl

/-- C3 (amended).  Assembly never fails: for any non-empty list of image paths
that all fail to load, and no text, the assembler still returns a payload
consisting of the instruction and the image-section label with zero images,
and the main script's abort guard (which looks only at whether text was
extracted and whether the screenshot-path list is empty) does not fire. -/
theorem C3_all_corrupt_images_still_payload :
    ∀ (I : Type) (prompt : String) (ps : List String) (load : String → Option I),
      (∀ p ∈ ps, load p = none) → ps ≠ [] →
      prepare_gemini_input prompt none (some ps) load
        = [ContentPart.str prompt, ContentPart.str imagesLabel]
      ∧ mainAborts none ps = false := by
  intro I prompt ps load hload hne
  constructor
  · rw [prepare_gemini_input_eq]
    have hfm : ps.filterMap load = [] := List.filterMap_eq_nil_iff.mpr hload
    simp [hne, hfm]
  · simp [mainAborts, hne]

/-- Witness for C3 (amended): two corrupt paths, a loader that always fails. -/
theorem C3_all_corrupt_images_still_payload_witness :
    prepare_gemini_input (I := Nat) "P" none (some ["x.png", "y.png"]) (fun _ => none)
      = [ContentPart.str "P", ContentPart.str imagesLabel]
    ∧ mainAborts none ["x.png", "y.png"] = false :=
  C3_all_corrupt_images_still_payload Nat "P" ["x.png", "y.png"] (fun _ => none)
    (by intro p _; rfl) (by decide)

/-- C4.  The claim states that on any engine error the adapter fails with
`AnalysisUnavailable`, carrying the raw error message unmodified.  This is
false: the `except` clause catches the error and returns an ordinary string —
the prefixed message, not the raw one — so the caller receives a normal
result whose text differs from the engine's error message. -/
theorem C4_counterexample :
    send_to_gemini (I := Nat) (fun _ => Except.error "quota exceeded") []
      = "Error: Failed to get response from Gemini. quota exceeded"
    ∧ send_to_gemini (I := Nat) (fun _ => Except.error "quota exceeded") []
        ≠ "quota exceeded" := by
  constructor
  · rfl
  · decide

/-- C4 (amended).  On any engine error the adapter does not propagate a
failure: it catches the error and returns, as an ordinary string, the engine's
message prefixed with `"Error: Failed to get response from Gemini. "`; on
success it returns the response text.  The engine is consulted exactly once
per call — no retry is performed. -/
theorem C4_error_returned_as_prefixed_string :
    ∀ (I : Type) (engine : GenerateRequest I → Except String String)
      (parts : List (ContentPart I)),
      (∀ e, engine (geminiRequest parts) = Except.error e →
        send_to_gemini engine parts = failureMessage e)
      ∧ (∀ t, engine (geminiRequest parts) = Except.ok t →
        send_to_gemini engine parts = t) := by
  intro I engine parts
  constructor
  · intro e he
    unfold send_to_gemini
    rw [he]
  · intro t ht
    unfold send_to_gemini
    rw [ht]

/-- Witness for C4 (amended): a failing engine yields the prefixed message as
a normal string; a succeeding engine yields its text. -/
theorem C4_error_returned_as_prefixed_string_witness :
    send_to_gemini (I := Nat) (fun _ => Except.error "boom") [] = failureMessage "boom"
    ∧ send_to_gemini (I := Nat) (fun _ => Except.ok "| t |") [] = "| t |" :=
  ⟨(C4_error_returned_as_prefixed_string Nat (fun _ => Except.error "boom") []).1 "boom" rfl,
   (C4_error_returned_as_prefixed_string Nat (fun _ => Except.ok "| t |") []).2 "| t |" rfl⟩

/-- C6.  The claim states the adapter accepts a per-invocation reasoning-budget
parameter.  This is false: `send_to_gemini` takes only the content parts, and
the request it builds carries the literal `thinking_budget = 1024` — two
different concrete invocations both produce budget 1024, and the embedding
offers no input through which a caller could change it. -/
theorem C6_counterexample :
    (geminiRequest (I := Nat) []).thinking_budget = 1024
    ∧ (geminiRequest (I := Nat) [ContentPart.str "another call"]).thinking_budget = 1024 :=
  ⟨rfl, rfl⟩

/-- C6 (amended).  The reasoning budget is the fixed constant 1024, hard-coded
inside the adapter: every request it builds, for every content-part list,
carries `thinking_budget = 1024` (and the fixed model name); the adapter's
interface exposes no way to vary it per invocation. -/
theorem C6_budget_hardcoded :
    ∀ (I : Type) (parts : List (ContentPart I)),
      (geminiRequest parts).thinking_budget = 1024
      ∧ (geminiRequest parts).model = MODEL_NAME :=
  fun _ _ => ⟨rfl, rfl⟩

/-- C7.  The payload's segments appear in the fixed order: the instruction
first, then — when text is present, i.e. non-`None` and non-empty — the text
section label followed by the text, then — when the image-path list is present
and non-empty — the image section label followed by the successfully loaded
images in the order of the input path list. -/
theorem C7_segment_order :
    ∀ (I : Type) (prompt : String) (text : Option String)
      (image_paths : Option (List String)) (load : String → Option I),
      prepare_gemini_input prompt text image_paths load =
        [ContentPart.str prompt]
        ++ ((match text with
            | some t => if t = "" then [] else [ContentPart.str textLabel, ContentPart.str t]
            | none => []) : List (ContentPart I))
        ++ ((match image_paths with
            | some ps =>
              if ps = [] then []
              else ContentPart.str imagesLabel :: (ps.filterMap load).map ContentPart.img
            | none => []) : List (ContentPart I)) :=
  fun _ prompt text image_paths load => prepare_gemini_input_eq prompt text image_paths load

/-- C9.  An image load failure never aborts assembly: for every prompt, text
and path list, the payload contains exactly one image segment per successfully
loaded path, in particular one valid and one corrupt path yield exactly one
image segment. -/
theorem C9_failed_images_skipped :
    (∀ (I : Type) (prompt : String) (text : Option String) (ps : List String)
       (load : String → Option I),
       imageCount (prepare_gemini_input prompt text (some ps) load)
         = (ps.filterMap load).length)
    ∧ imageCount (prepare_gemini_input (I := Nat) "P" none (some ["good.png", "bad.png"])
        (fun p => if p = "good.png" then some 1 else none)) = 1 := by
  have hgen : ∀ (I : Type) (prompt : String) (text : Option String) (ps : List String)
      (load : String → Option I),
      imageCount (prepare_gemini_input prompt text (some ps) load)
        = (ps.filterMap load).length := by
    intro I prompt text ps load
    rw [prepare_gemini_input_eq]
    cases text with
    | none =>
      by_cases hps : ps = [] <;>
        simp [imageCount, hps, List.filter_map, Function.comp_def]
    | some t =>
      by_cases ht : t = "" <;> by_cases hps : ps = [] <;>
        simp [imageCount, ht, hps, List.filter_map, Function.comp_def]
  exact ⟨hgen, by rw [hgen]; rfl⟩

